import Mathlib

/-!
Verification of the gostatsd aggregation core (src/statsd/aggregator.go).

The Go code is shallowly embedded: float64 values are modelled as exact
rationals, time instants and durations as rational seconds, int64 arithmetic
wraps through `wrap64`, Go map state is modelled as functions
`name → tagsKey → Option record`, and a run-time panic from out-of-range
slice indexing is modelled as `Option.none`.
-/

set_option maxHeartbeats 1000000

namespace Gostatsd

/-- Two's-complement wrap for Go `int64` arithmetic, which wraps silently. -/
def wrap64 (x : Int) : Int := (x + 2 ^ 63) % 2 ^ 64 - 2 ^ 63

/-- Go numeric conversion `int(x)` / `int64(x)` from `float64`: truncation
toward zero (values being modelled as exact rationals). -/
def goTrunc (q : ℚ) : Int := if 0 ≤ q then ⌊q⌋ else -⌊-q⌋

/-- Go `int64(v)` for a float64 `v` as used by the aggregator; in-range values
truncate toward zero (out-of-range conversions are implementation-defined in
Go and are wrapped here). -/
def toInt64 (q : ℚ) : Int := wrap64 (goTrunc q)

/-- `round` from aggregator.go: poor man's `math.Round(x) = math.Floor(x + 0.5)`. -/
def round (v : ℚ) : ℚ := ((⌊v + 1 / 2⌋ : Int) : ℚ)

/-- Go slice indexing `l[i]` with an integer index: an out-of-range access is a
run-time panic, modelled as `none`. -/
def idx? (l : List ℚ) (i : Int) : Option ℚ :=
  if 0 ≤ i then l.get? i.toNat else none

/-- The Go loop building `cumulativeValues` / `cumulSumSquaresValues`: starting
from the accumulator seeded with the first element, append running totals. -/
def cumulFrom (f : ℚ → ℚ) (acc : ℚ) : List ℚ → List ℚ
  | [] => [acc]
  | x :: xs => acc :: cumulFrom f (acc + f x) xs

/-- Cumulative array of `f` over a list (empty list gives an empty array). -/
def cumul (f : ℚ → ℚ) : List ℚ → List ℚ
  | [] => []
  | x :: xs => cumulFrom f (f x) xs

/-- Modelled from the spec: `types.Percentiles` and its `Set` method are not
under src/; per §9 a percentile container holds one entry per distinct field
key, so `Set` replaces the entry when the key is present and appends otherwise. -/
def pset : List (String × ℚ) → String → ℚ → List (String × ℚ)
  | [], k, v => [(k, v)]
  | (k', v') :: rest, k, v =>
    if k' = k then (k, v) :: rest else (k', v') :: pset rest k v

/-- Lookup of a percentile field by key. -/
def plookup : List (String × ℚ) → String → Option ℚ
  | [], _ => none
  | (k', v') :: rest, k => if k' = k then some v' else plookup rest k

/-- The mutable locals of the percentile-threshold loop in `flush`
(`sum`, `sumSquares`, `mean`, `thresholdBoundary`) plus the percentile fields
emitted so far. -/
structure PctState where
  sum : ℚ
  sumSquares : ℚ
  mean : ℚ
  boundary : ℚ
  percs : List (String × ℚ)
deriving DecidableEq

/-- One iteration of the `for _, pct := range a.PercentThresholds` loop in
`flush` (aggregator.go lines 104-133). `cnt` is `timer.Count`. -/
def pctStep (values cumulative cumulSquares : List ℚ) (cnt : Nat) (st : PctState)
    (pct : ℚ) : Option PctState :=
  let sPct := toString (goTrunc pct)
  let emit : PctState → Int → PctState := fun s n =>
    let p := pset s.percs ("count_" ++ sPct) ((n : ℚ))
    let p := pset p ("mean_" ++ sPct) s.mean
    let p := pset p ("sum_" ++ sPct) s.sum
    let p := pset p ("sum_squares_" ++ sPct) s.sumSquares
    let p := if 0 < pct then pset p ("upper_" ++ sPct) s.boundary
             else pset p ("lower_" ++ sPct) s.boundary
    { s with percs := p }
  if 1 < cnt then
    let n := goTrunc (round (|pct| / 100 * (cnt : ℚ)))
    if n = 0 then some st
    else if 0 < pct then do
      let boundary ← idx? values (n - 1)
      let sum ← idx? cumulative (n - 1)
      let sumSquares ← idx? cumulSquares (n - 1)
      pure (emit { st with boundary := boundary, sum := sum, sumSquares := sumSquares,
                           mean := sum / (n : ℚ) } n)
    else do
      let boundary ← idx? values ((cnt : Int) - n)
      let cLast ← idx? cumulative ((cnt : Int) - 1)
      let cPrev ← idx? cumulative ((cnt : Int) - n - 1)
      let qLast ← idx? cumulSquares ((cnt : Int) - 1)
      let qPrev ← idx? cumulSquares ((cnt : Int) - n - 1)
      pure (emit { st with boundary := boundary, sum := cLast - cPrev,
                           sumSquares := qLast - qPrev,
                           mean := (cLast - cPrev) / (n : ℚ) } n)
  else
    some (emit st (cnt : Int))

/-- The whole percentile-threshold loop; a panic in any iteration aborts. -/
def pctLoop (values cumulative cumulSquares : List ℚ) (cnt : Nat) :
    PctState → List ℚ → Option PctState
  | st, [] => some st
  | st, pct :: rest =>
    (pctStep values cumulative cumulSquares cnt st pct).bind fun st' =>
      pctLoop values cumulative cumulSquares cnt st' rest

/-- `types.Counter` as used by aggregator.go; Go zero values are the field
defaults. -/
structure Counter where
  value : Int := 0
  perSecond : ℚ := 0
  interval : ℚ := 0
  timestamp : ℚ := 0
deriving DecidableEq

/-- `types.Gauge` as used by aggregator.go. -/
structure Gauge where
  value : ℚ := 0
  interval : ℚ := 0
  timestamp : ℚ := 0
deriving DecidableEq

/-- `types.Timer` as used by aggregator.go. The Go field `StdDev` stores
`math.Sqrt(sumOfDiffs / count)`; since the square root of a rational is
irrational in general, the record carries the radicand `stdDevSq`
(= `sumOfDiffs / count`), of which the emitted `StdDev` is the square root. -/
structure Timer where
  values : List ℚ := []
  percentiles : List (String × ℚ) := []
  min : ℚ := 0
  max : ℚ := 0
  count : Nat := 0
  mean : ℚ := 0
  median : ℚ := 0
  stdDevSq : ℚ := 0
  sum : ℚ := 0
  sumSquares : ℚ := 0
  perSecond : ℚ := 0
  interval : ℚ := 0
  timestamp : ℚ := 0
deriving DecidableEq

/-- `types.Set` as used by aggregator.go: per-string occurrence counts. -/
structure SetRecord where
  values : String → Option Int := fun _ => none
  interval : ℚ := 0
  timestamp : ℚ := 0

/-- The four metric kinds; any other discriminator value on the wire is
collapsed into `UNKNOWN`. -/
inductive MetricType where
  | COUNTER
  | GAUGE
  | TIMER
  | SET
  | UNKNOWN
deriving DecidableEq

/-- `types.Metric`: an ingress record. `tagsKey` stands for `m.Tags.String()`,
the canonical tag key (tag canonicalization is outside src/). -/
structure Metric where
  name : String
  value : ℚ := 0
  stringValue : String := ""
  type : MetricType
  tagsKey : String := ""

/-- The bookkeeping fields of `metricAggregatorStats` touched by the embedded
operations (`LastFlush`/`LastFlushError` belong to the orchestrator and
`NumStats`/`ProcessingTime` are iteration/wall-clock bookkeeping not modelled). -/
structure AggStats where
  badLines : Int := 0
  lastMessage : ℚ := 0
deriving DecidableEq

/-- `MetricAggregator` state: each Go nested map `name → tagsKey → record` is
modelled pointwise (Go deletes a name key when its inner map empties, which is
invisible pointwise). -/
structure AggState where
  counters : String → String → Option Counter
  gauges : String → String → Option Gauge
  timers : String → String → Option Timer
  sets : String → String → Option SetRecord
  flushInterval : ℚ
  expiryInterval : ℚ
  percentThresholds : List ℚ
  stats : AggStats := {}

/-- Pointwise update of one nested-map entry. -/
def updMap {R : Type} (f : String → String → Option R) (n t : String) (v : R) :
    String → String → Option R :=
  fun n' t' => if n' = n ∧ t' = t then some v else f n' t'

/-- Modelled from the spec: `types.NewCounter` is not under src/; per §4.2 a
new counter has `value = int64(record.numeric_value)`, `interval` the flush
interval and `timestamp = now`. -/
def NewCounter (now interval : ℚ) (v : Int) : Counter :=
  { value := v, interval := interval, timestamp := now }

/-- Modelled from the spec: `types.NewGauge` is not under src/. -/
def NewGauge (now interval : ℚ) (v : ℚ) : Gauge :=
  { value := v, interval := interval, timestamp := now }

/-- Modelled from the spec: `types.NewTimer` is not under src/. -/
def NewTimer (now interval : ℚ) (vs : List ℚ) : Timer :=
  { values := vs, interval := interval, timestamp := now }

/-- Modelled from the spec: `types.NewSet` is not under src/. -/
def NewSet (now interval : ℚ) (vs : String → Option Int) : SetRecord :=
  { values := vs, interval := interval, timestamp := now }

/-- `receiveMetric` from aggregator.go: fold one metric into the state.
`now` models the wall clock passed in by `processQueue`; `Stats.LastMessage`
is stamped unconditionally at the end of the call (the Go code reads
`time.Now()` again there; the two instants are identified). -/
def receiveMetric (m : Metric) (now : ℚ) (a : AggState) : AggState :=
  let tagsKey := m.tagsKey
  let a' : AggState :=
    match m.type with
    | .COUNTER =>
      match a.counters m.name tagsKey with
      | some c =>
        let c' : Counter := { c with value := wrap64 (c.value + toInt64 m.value) }
        { a with counters := updMap a.counters m.name tagsKey c' }
      | none =>
        let c' := NewCounter now a.flushInterval (toInt64 m.value)
        { a with counters := updMap a.counters m.name tagsKey c' }
    | .GAUGE =>
      match a.gauges m.name tagsKey with
      | some g =>
        let g' : Gauge := { g with value := m.value }
        { a with gauges := updMap a.gauges m.name tagsKey g' }
      | none =>
        let g' := NewGauge now a.flushInterval m.value
        { a with gauges := updMap a.gauges m.name tagsKey g' }
    | .TIMER =>
      match a.timers m.name tagsKey with
      | some t =>
        let t' : Timer := { t with values := t.values ++ [m.value] }
        { a with timers := updMap a.timers m.name tagsKey t' }
      | none =>
        let t' := NewTimer now a.flushInterval [m.value]
        { a with timers := updMap a.timers m.name tagsKey t' }
    | .SET =>
      match a.sets m.name tagsKey with
      | some s =>
        let newCount : Int :=
          match s.values m.stringValue with
          | some k => wrap64 (k + 1)
          | none => 1
        let s' : SetRecord :=
          { s with values := fun k =>
              if k = m.stringValue then some newCount else s.values k }
        { a with sets := updMap a.sets m.name tagsKey s' }
      | none =>
        let s' := NewSet now a.flushInterval
          (fun k => if k = m.stringValue then some 1 else none)
        { a with sets := updMap a.sets m.name tagsKey s' }
    | .UNKNOWN => a
  { a' with stats := { a'.stats with lastMessage := now } }

/-- `isExpired` from aggregator.go: expiry is disabled when the interval is 0. -/
def isExpired (a : AggState) (now ts : ℚ) : Prop :=
  a.expiryInterval ≠ 0 ∧ now - ts > a.expiryInterval

instance (a : AggState) (now ts : ℚ) : Decidable (isExpired a now ts) :=
  inferInstanceAs (Decidable (_ ∧ _))

/-- `Reset` from aggregator.go: evict expired series; give surviving counters,
timers and sets a fresh zero record keeping only `interval` (Go composite
literals zero the other fields); leave surviving gauges untouched.
(The `a.NumStats = 0` write concerns the unmodelled snapshot tally.) -/
def Reset (now : ℚ) (a : AggState) : AggState :=
  { a with
    counters := fun n t => (a.counters n t).bind fun c =>
      if isExpired a now c.timestamp then none else some { interval := c.interval }
    timers := fun n t => (a.timers n t).bind fun tm =>
      if isExpired a now tm.timestamp then none else some { interval := tm.interval }
    sets := fun n t => (a.sets n t).bind fun s =>
      if isExpired a now s.timestamp then none
      else some { interval := s.interval, values := fun _ => none }
    gauges := fun n t => (a.gauges n t).bind fun g =>
      if isExpired a now g.timestamp then none else some g }

/-- Timer finalization in `flush` (aggregator.go lines 83-158, the
`count > 0` branch). Sorting happens in place in Go; a panic from
out-of-range indexing is modelled as `none`. -/
def finalizeTimer (flushInterval : ℚ) (thresholds : List ℚ) (tm : Timer) :
    Option Timer := do
  let values := List.insertionSort (· ≤ ·) tm.values
  let cnt := values.length
  let mn ← idx? values 0
  let mx ← idx? values ((cnt : Int) - 1)
  let cumulative := cumul id values
  let cumulSquares := cumul (fun x => x * x) values
  let st ← pctLoop values cumulative cumulSquares cnt
    { sum := mn, sumSquares := mn * mn, mean := mn, boundary := mx,
      percs := tm.percentiles } thresholds
  let sum ← idx? cumulative ((cnt : Int) - 1)
  let sumSquares ← idx? cumulSquares ((cnt : Int) - 1)
  let mean := sum / (cnt : ℚ)
  let sumOfDiffs := values.foldl (fun acc v => acc + (v - mean) * (v - mean)) 0
  let mid := cnt / 2
  let median ←
    if cnt % 2 = 0 then do
      let x ← idx? values ((mid : Int) - 1)
      let y ← idx? values ((mid : Int))
      pure ((x + y) / 2)
    else idx? values ((mid : Int))
  pure { tm with
    values := values
    percentiles := st.percs
    min := mn
    max := mx
    count := cnt
    mean := mean
    median := median
    stdDevSq := sumOfDiffs / (cnt : ℚ)
    sum := sum
    sumSquares := sumSquares
    perSecond := (cnt : ℚ) / flushInterval }

/-- Counter finalization in `flush`: `perSecond = float64(value) / interval`. -/
def finalizeCounter (flushInterval : ℚ) (c : Counter) : Counter :=
  { c with perSecond := (c.value : ℚ) / flushInterval }

/-- No timer in the state panics during finalization; under this condition the
Go `flush` runs to completion (a panic would abort it mid-iteration). -/
def NoPanic (a : AggState) : Prop :=
  ∀ n t tm, a.timers n t = some tm → tm.values ≠ [] →
    (finalizeTimer a.flushInterval a.percentThresholds tm).isSome

/-- The effect of `flush` on the live aggregator state (the returned snapshot
deep-copies these same finalized maps): counters get `perSecond` written back,
non-empty timers get their finalized record (including in-place sorted values)
written back, empty timers are modified only in a local copy, gauges and sets
are only counted. The `statsd.bad_lines_seen` counter value is absorbed into
`BadLines`. When some timer would panic the Go flush dies instead of
completing; theorems about `flushState` therefore assume `NoPanic`. -/
def flushState (a : AggState) : AggState :=
  { a with
    counters := fun n t => (a.counters n t).map (finalizeCounter a.flushInterval)
    timers := fun n t => (a.timers n t).map fun tm =>
      if tm.values = [] then tm
      else (finalizeTimer a.flushInterval a.percentThresholds tm).getD tm
    stats := { a.stats with badLines := a.stats.badLines +
      (match a.counters "statsd.bad_lines_seen" "" with
       | some c => c.value
       | none => 0) } }

/-- Timestamp of the record for a series of a given kind, if present. -/
def tsAt (a : AggState) (k : MetricType) (n t : String) : Option ℚ :=
  match k with
  | .COUNTER => (a.counters n t).map Counter.timestamp
  | .GAUGE => (a.gauges n t).map Gauge.timestamp
  | .TIMER => (a.timers n t).map Timer.timestamp
  | .SET => (a.sets n t).map SetRecord.timestamp
  | .UNKNOWN => none

/-- An aggregator state with no series, as built by `NewMetricAggregator`. -/
def emptyAgg (flushI expiryI : ℚ) (ths : List ℚ) : AggState :=
  { counters := fun _ _ => none
    gauges := fun _ _ => none
    timers := fun _ _ => none
    sets := fun _ _ => none
    flushInterval := flushI
    expiryInterval := expiryI
    percentThresholds := ths }

/-- A counter ingress record of increment `v`. -/
def mkCounterMetric (name tk : String) (v : Int) : Metric :=
  { name := name, value := (v : ℚ), type := .COUNTER, tagsKey := tk }

/-- A timer with two samples, exercising the threshold P = -100. -/
def tmC1 : Timer := { values := [1, 2] }

/-- A timer with the spec test vector {1,2,3,4,5}. -/
def tmC3 : Timer := { values := [1, 2, 3, 4, 5] }

/-- The finalized record the code produces for `tmC3` with thresholds
{90, -10} and a 1-second flush interval. -/
def tC3val : Timer :=
  { values := [1, 2, 3, 4, 5]
    percentiles := [("count_90", 5), ("mean_90", 3), ("sum_90", 15),
      ("sum_squares_90", 55), ("upper_90", 5), ("count_-10", 1), ("mean_-10", 5),
      ("sum_-10", 5), ("sum_squares_-10", 25), ("lower_-10", 5)]
    min := 1
    max := 5
    count := 5
    mean := 3
    median := 3
    stdDevSq := 2
    sum := 15
    sumSquares := 55
    perSecond := 5 }

/-- Counter metric named "A", increment 1, empty tag key. -/
def mA : Metric := { name := "A", value := 1, type := .COUNTER }

/-- Counter metric named "B", increment 1, empty tag key. -/
def mB : Metric := { name := "B", value := 1, type := .COUNTER }

/-- The expiry scenario of spec §8 (test 6): counters "A" and "B" created at
t = 0, "B" folded again at t = 1 s, flush interval 1 s, with the given expiry
interval. -/
def scenario (expiry : ℚ) : AggState :=
  receiveMetric mB 1 (receiveMetric mB 0 (receiveMetric mA 0 (emptyAgg 1 expiry [])))

/-- A metric whose kind is none of the four known kinds. -/
def mU : Metric := { name := "X", value := 1, type := .UNKNOWN }

/-- A state holding the single counter series ("h", "") with accumulated
value 3 and a 1-second flush interval. -/
def stC6 : AggState :=
  { emptyAgg 1 0 [] with
    counters := fun n t =>
      if n = "h" ∧ t = "" then some { value := 3, interval := 1 } else none }

end Gostatsd

namespace Gostatsd

/-! ### Helper lemmas -/

theorem tos90 : toString (90 : Int) = "90" := rfl

theorem tosNeg10 : toString (-10 : Int) = "-10" := rfl

theorem k01 : ("count_" ++ "90" : String) = "count_90" := rfl

theorem k02 : ("mean_" ++ "90" : String) = "mean_90" := rfl

theorem k03 : ("sum_" ++ "90" : String) = "sum_90" := rfl

theorem k04 : ("sum_squares_" ++ "90" : String) = "sum_squares_90" := rfl

theorem k05 : ("upper_" ++ "90" : String) = "upper_90" := rfl

theorem k06 : ("count_" ++ "-10" : String) = "count_-10" := rfl

theorem k07 : ("mean_" ++ "-10" : String) = "mean_-10" := rfl

theorem k08 : ("sum_" ++ "-10" : String) = "sum_-10" := rfl

theorem k09 : ("sum_squares_" ++ "-10" : String) = "sum_squares_-10" := rfl

theorem k10 : ("lower_" ++ "-10" : String) = "lower_-10" := rfl

theorem idx?_natCast (l : List ℚ) (n : Nat) : idx? l (n : Int) = l[n]? := by
  simp [idx?]

theorem cumulFrom_length (f : ℚ → ℚ) (xs : List ℚ) (acc : ℚ) :
    (cumulFrom f acc xs).length = xs.length + 1 := by
  induction xs generalizing acc with
  | nil => simp [cumulFrom]
  | cons x xs ih => simp [cumulFrom, ih]

theorem cumul_length (f : ℚ → ℚ) (l : List ℚ) : (cumul f l).length = l.length := by
  cases l with
  | nil => simp [cumul]
  | cons x xs => simp [cumul, cumulFrom_length]

theorem cumulFrom_get_last (f : ℚ → ℚ) (xs : List ℚ) (acc : ℚ) :
    (cumulFrom f acc xs)[xs.length]? = some (acc + (xs.map f).sum) := by
  induction xs generalizing acc with
  | nil => simp [cumulFrom]
  | cons x xs ih => simp [cumulFrom, ih, add_assoc]

theorem cumul_get_last (f : ℚ → ℚ) (x : ℚ) (xs : List ℚ) :
    (cumul f (x :: xs))[xs.length]? = some (((x :: xs).map f).sum) := by
  simp [cumul, cumulFrom_get_last]

theorem foldl_add_map (g : ℚ → ℚ) (l : List ℚ) (c : ℚ) :
    l.foldl (fun acc v => acc + g v) c = c + (l.map g).sum := by
  induction l generalizing c with
  | nil => simp
  | cons x xs ih => simp [ih, add_assoc]

theorem goTrunc_intCast (v : Int) : goTrunc (v : ℚ) = v := by
  unfold goTrunc
  rcases le_or_lt 0 (v : ℚ) with h | h
  · simp [h, Int.floor_intCast]
  · rw [if_neg (not_le.mpr h), ← Int.cast_neg, Int.floor_intCast, neg_neg]

theorem wrap64_eq_self (x : Int) (h1 : -(2 ^ 63) ≤ x) (h2 : x < 2 ^ 63) :
    wrap64 x = x := by
  unfold wrap64
  rw [Int.emod_eq_of_lt (by omega) (by omega)]
  omega

theorem toInt64_intCast (v : Int) (h1 : -(2 ^ 63) ≤ v) (h2 : v < 2 ^ 63) :
    toInt64 (v : ℚ) = v := by
  rw [toInt64, goTrunc_intCast, wrap64_eq_self v h1 h2]

end Gostatsd

namespace Gostatsd

/-! ### Concrete evaluations shared between claims -/

theorem evalC3 :
    finalizeTimer 1 [90, -10] tmC3 = some tC3val := by
  norm_num [finalizeTimer, pctLoop, pctStep, idx?, cumul, cumulFrom, goTrunc, round,
    tos90, tosNeg10, k01, k02, k03, k04, k05, k06, k07, k08, k09, k10,
    pset, Int.toNat_ofNat, tmC3, tC3val,
    List.insertionSort, List.orderedInsert, Option.bind]
  simp
  norm_num

end Gostatsd

namespace Gostatsd

/-! ### C1 -/

/-- C1: the claim says that for a percentile threshold with |P| = 100 and at
least one sample, the percentile computation completes without any
out-of-range access and emits totals. It fails: for P = -100 over samples
{1, 2} the code reads `cumulativeValues[count - n - 1] = cumulativeValues[-1]`
and panics; the evaluation of the embedded computation at that input is `none`
(= Go run-time panic). -/
theorem c1_percentile100_panics : finalizeTimer 1 [-100] tmC1 = none := by
  norm_num [finalizeTimer, pctLoop, pctStep, idx?, cumul, cumulFrom, goTrunc, round,
    tmC1, List.insertionSort, List.orderedInsert, Option.bind]

/-! ### C3 -/

/-- C3 counterexample: the claim says `sum_-10 = 1` for samples {1,2,3,4,5};
the code computes `S[4] - S[3] = 15 - 10 = 5` (a negative threshold selects
the top n samples, not the bottom). -/
theorem c3_counterexample :
    ((finalizeTimer 1 [90, -10] tmC3).bind fun ft => plookup ft.percentiles "sum_-10") =
      some 5 ∧ (5 : ℚ) ≠ 1 := by
  constructor
  · rw [evalC3]
    simp [tC3val, plookup]
  · norm_num

/-- C3 amended: for P = -10 over samples {1,2,3,4,5} the flush emits
`n = count_-10 = 1` and, the negative threshold selecting the top n samples,
`lower_-10 = 5` (the lower boundary of the top 10%), `sum_-10 = 5`,
`sum_squares_-10 = 25`, `mean_-10 = 5`. -/
theorem c3_amended :
    ((finalizeTimer 1 [90, -10] tmC3).bind fun ft => plookup ft.percentiles "count_-10") =
      some 1 ∧
    ((finalizeTimer 1 [90, -10] tmC3).bind fun ft => plookup ft.percentiles "lower_-10") =
      some 5 ∧
    ((finalizeTimer 1 [90, -10] tmC3).bind fun ft => plookup ft.percentiles "sum_-10") =
      some 5 ∧
    ((finalizeTimer 1 [90, -10] tmC3).bind fun ft => plookup ft.percentiles "sum_squares_-10") =
      some 25 ∧
    ((finalizeTimer 1 [90, -10] tmC3).bind fun ft => plookup ft.percentiles "mean_-10") =
      some 5 := by
  rw [evalC3]
  refine ⟨?_, ?_, ?_, ?_, ?_⟩ <;> simp [tC3val, plookup]

/-! ### C2 -/

/-- C2 counterexample: in the spec scenario (counters "A" and "B" created at
t = 0, "B" folded again at t = 1 s, expiry 2 s, reset at t = 3 s) the claim says
the re-folded series "B" survives with value zeroed; in the code a fold into an
existing counter does not advance its timestamp, so "B" is also evicted. -/
theorem c2_counterexample : (Reset 3 (scenario 2)).counters "B" "" = none := by
  simp [Reset, scenario, receiveMetric, emptyAgg, updMap, mA, mB, isExpired,
    NewCounter, toInt64, goTrunc, wrap64]
  norm_num

/-- C2 amended: both series are evicted by the reset at t = 3 s, because a fold
into an existing counter does not advance its timestamp (both expiry anchors
stay at t = 0 and 3 - 0 > 2); with expiry_interval = 0 neither series is
evicted and both are zeroed, keeping only their interval. -/
theorem c2_amended :
    (Reset 3 (scenario 2)).counters "A" "" = none ∧
    (Reset 3 (scenario 2)).counters "B" "" = none ∧
    (Reset 3 (scenario 0)).counters "A" "" = some { value := 0, interval := 1 } ∧
    (Reset 3 (scenario 0)).counters "B" "" = some { value := 0, interval := 1 } := by
  refine ⟨?_, ?_, ?_, ?_⟩ <;>
    · simp [Reset, scenario, receiveMetric, emptyAgg, updMap, mA, mB, isExpired,
        NewCounter, toInt64, goTrunc, wrap64]
      try norm_num

/-! ### C5 -/

/-- C5 counterexample: the claim says a fold of an unknown kind leaves every
bookkeeping statistic, including LastMessage, exactly as before; the code
stamps `Stats.LastMessage` unconditionally at the end of `receiveMetric`,
after the `default:` branch as well. -/
theorem c5_counterexample :
    (receiveMetric mU 5 (emptyAgg 1 0 [])).stats.lastMessage ≠
      (emptyAgg 1 0 []).stats.lastMessage := by
  simp [receiveMetric, mU, emptyAgg]
  try norm_num

/-- C5 amended: a fold of an unknown kind leaves the four kind maps and all
other statistics untouched and only stamps `Stats.LastMessage` (which the code
sets after every call, successful or not). -/
theorem c5_amended (a : AggState) (m : Metric) (now : ℚ) (h : m.type = .UNKNOWN) :
    receiveMetric m now a = { a with stats := { a.stats with lastMessage := now } } := by
  simp [receiveMetric, h]

/-- Witness for C5 amended. -/
theorem c5_amended_witness :
    receiveMetric mU 5 (emptyAgg 1 0 []) =
      { emptyAgg 1 0 [] with
        stats := { (emptyAgg 1 0 []).stats with lastMessage := 5 } } :=
  c5_amended (emptyAgg 1 0 []) mU 5 rfl

/-! ### C7 -/

/-- C7: after `Reset now`, every surviving counter, timer and set series is a
fresh zero-state record keeping only its interval (value 0, empty values,
empty set map), and every surviving gauge record is left unchanged. -/
theorem c7_reset_survivors (a : AggState) (now : ℚ) (n t : String) :
    (∀ c, a.counters n t = some c → ¬ isExpired a now c.timestamp →
      (Reset now a).counters n t = some { interval := c.interval }) ∧
    (∀ tm, a.timers n t = some tm → ¬ isExpired a now tm.timestamp →
      (Reset now a).timers n t = some { interval := tm.interval }) ∧
    (∀ s, a.sets n t = some s → ¬ isExpired a now s.timestamp →
      (Reset now a).sets n t = some { interval := s.interval, values := fun _ => none }) ∧
    (∀ g, a.gauges n t = some g → ¬ isExpired a now g.timestamp →
      (Reset now a).gauges n t = some g) := by
  refine ⟨?_, ?_, ?_, ?_⟩ <;> intro r hr hexp <;> simp [Reset, hr, hexp]

/-- Witness for C7. -/
theorem c7_witness :
    (Reset 3 stC6).counters "h" "" = some { interval := 1 } :=
  (c7_reset_survivors stC6 3 "h" "").1 { value := 3, interval := 1 }
    (by simp [stC6, emptyAgg]) (by simp [isExpired, stC6, emptyAgg])

end Gostatsd

namespace Gostatsd

/-! ### C4 -/

/-- C4 counterexample: the claim says a fold into an existing series advances
its timestamp to the fold's now; in the code only creation sets the timestamp:
folding counter "A" at t = 0 and again at t = 5 leaves timestamp 0, not 5. -/
theorem c4_counterexample :
    ((receiveMetric mA 5 (receiveMetric mA 0 (emptyAgg 1 0 []))).counters "A" "").map
      Counter.timestamp = some 0 ∧ (0 : ℚ) ≠ 5 := by
  constructor
  · simp [receiveMetric, mA, emptyAgg, updMap, NewCounter]
  · norm_num

/-- C4 amended: for every kind, the timestamp of the record affected by a fold
is the record's creation instant: a fold into an absent series stamps `now`,
and a fold into an existing series leaves the stored timestamp unchanged. -/
theorem c4_amended (a : AggState) (m : Metric) (now : ℚ) (h : m.type ≠ .UNKNOWN) :
    tsAt (receiveMetric m now a) m.type m.name m.tagsKey =
      some ((tsAt a m.type m.name m.tagsKey).getD now) := by
  cases htype : m.type with
  | COUNTER =>
    cases hc : a.counters m.name m.tagsKey <;>
      simp [receiveMetric, tsAt, htype, hc, updMap, NewCounter]
  | GAUGE =>
    cases hc : a.gauges m.name m.tagsKey <;>
      simp [receiveMetric, tsAt, htype, hc, updMap, NewGauge]
  | TIMER =>
    cases hc : a.timers m.name m.tagsKey <;>
      simp [receiveMetric, tsAt, htype, hc, updMap, NewTimer]
  | SET =>
    cases hc : a.sets m.name m.tagsKey <;>
      simp [receiveMetric, tsAt, htype, hc, updMap, NewSet]
  | UNKNOWN => exact absurd htype h

/-- Witness for C4 amended. -/
theorem c4_amended_witness :
    tsAt (receiveMetric mA 5 (receiveMetric mA 0 (emptyAgg 1 0 []))) mA.type mA.name
      mA.tagsKey =
    some ((tsAt (receiveMetric mA 0 (emptyAgg 1 0 [])) mA.type mA.name mA.tagsKey).getD 5) :=
  c4_amended (receiveMetric mA 0 (emptyAgg 1 0 [])) mA 5 (by simp [mA])

/-! ### C6 -/

/-- C6 counterexample: the claim says flush leaves every record in the live
state unchanged; the code writes the computed `PerSecond` back into the live
counter record (`a.Counters[key][tagsKey] = counter`). -/
theorem c6_counterexample :
    (flushState stC6).counters "h" "" ≠ stC6.counters "h" "" := by
  simp [flushState, stC6, emptyAgg, finalizeCounter]
  try norm_num

end Gostatsd

namespace Gostatsd

/-- Inversion of a successful timer finalization: every output field of the
written-back record, characterized against the sorted sample array. -/
theorem finalizeTimer_inv (I : ℚ) (ths : List ℚ) (tm ft : Timer) (s : List ℚ)
    (hs : s = List.insertionSort (· ≤ ·) tm.values)
    (h : finalizeTimer I ths tm = some ft) :
    ft.values = s ∧ ft.interval = tm.interval ∧ ft.timestamp = tm.timestamp ∧
    ft.count = s.length ∧
    idx? s 0 = some ft.min ∧
    idx? s ((s.length : Int) - 1) = some ft.max ∧
    idx? (cumul id s) ((s.length : Int) - 1) = some ft.sum ∧
    idx? (cumul (fun x => x * x) s) ((s.length : Int) - 1) = some ft.sumSquares ∧
    ft.mean = ft.sum / (s.length : ℚ) ∧
    ft.stdDevSq = (s.foldl (fun acc v => acc + (v - ft.mean) * (v - ft.mean)) 0) /
      (s.length : ℚ) ∧
    ft.perSecond = (s.length : ℚ) / I ∧
    (s.length % 2 = 0 → ∃ x y,
      idx? s (((s.length / 2 : Nat) : Int) - 1) = some x ∧
      idx? s ((s.length / 2 : Nat) : Int) = some y ∧ ft.median = (x + y) / 2) ∧
    (s.length % 2 ≠ 0 → idx? s ((s.length / 2 : Nat) : Int) = some ft.median) := by
  subst hs
  simp only [finalizeTimer, bind, Option.bind_eq_some, Option.pure_def,
    Option.some.injEq] at h
  obtain ⟨mn, hmn, mx, hmx, st, hst, sum, hsum, ss, hss, hrest⟩ := h
  split at hrest
  · rename_i heven
    simp only [Option.some_bind, Option.bind_eq_some, Option.some.injEq] at hrest
    obtain ⟨x, hx, y, hy, hft⟩ := hrest
    subst hft
    refine ⟨rfl, rfl, rfl, rfl, hmn, hmx, hsum, hss, rfl, rfl, rfl, ?_, ?_⟩
    · intro _
      exact ⟨x, y, hx, hy, rfl⟩
    · intro hodd
      exact absurd heven hodd
  · rename_i hodd
    simp only [Option.some_bind, Option.bind_eq_some, Option.some.injEq] at hrest
    obtain ⟨med, hmed, hft⟩ := hrest
    subst hft
    refine ⟨rfl, rfl, rfl, rfl, hmn, hmx, hsum, hss, rfl, rfl, rfl, ?_, ?_⟩
    · intro heven
      exact absurd heven hodd
    · intro _
      exact hmed

/-- A successfully indexed list is non-empty. -/
theorem idx?_zero_ne_nil {s : List ℚ} {q : ℚ} (h : idx? s 0 = some q) : s ≠ [] := by
  intro hnil
  subst hnil
  simp [idx?] at h

/-- The last entry of a cumulative array is the total of `f` over the list. -/
theorem cumul_last_sum (f : ℚ → ℚ) (s : List ℚ) (hne : s ≠ []) (q : ℚ)
    (h : idx? (cumul f s) ((s.length : Int) - 1) = some q) : q = (s.map f).sum := by
  obtain ⟨x, xs, rfl⟩ := List.exists_cons_of_ne_nil hne
  have hidx : (((x :: xs).length : Int) - 1) = ((xs.length : Nat) : Int) := by
    simp [List.length_cons]
  rw [hidx, idx?_natCast, cumul_get_last] at h
  exact (Option.some.injEq _ _ |>.mp h).symm

/-! ### C6 amended -/

/-- C6 amended: flush preserves the set of series and every ingest-visible
accumulator (gauge and set records untouched; counter value kept; timer sample
multiset kept, sorted in place; interval and timestamp kept), but it does
mutate live records: it writes `per_second` into every counter and the
finalized statistics into every non-empty timer. -/
theorem c6_flush_mutation (a : AggState) (hnp : NoPanic a) (n t : String) :
    (flushState a).gauges n t = a.gauges n t ∧
    (flushState a).sets n t = a.sets n t ∧
    ((flushState a).counters n t).isSome = ((a.counters n t)).isSome ∧
    (∀ c, a.counters n t = some c →
      (flushState a).counters n t =
        some { c with perSecond := (c.value : ℚ) / a.flushInterval }) ∧
    (∀ tm, a.timers n t = some tm → ∃ tm',
      (flushState a).timers n t = some tm' ∧ tm'.values.Perm tm.values ∧
      tm'.interval = tm.interval ∧ tm'.timestamp = tm.timestamp) := by
  refine ⟨rfl, rfl, ?_, ?_, ?_⟩
  · cases hc : a.counters n t <;> simp [flushState, hc]
  · intro c hc
    simp [flushState, hc, finalizeCounter]
  · intro tm htm
    by_cases hemp : tm.values = []
    · refine ⟨tm, ?_, by simp, rfl, rfl⟩
      simp [flushState, htm, hemp]
    · have hsome := hnp n t tm htm hemp
      obtain ⟨ft, hft⟩ := Option.isSome_iff_exists.mp hsome
      obtain ⟨hvals, hint, hts, _⟩ := finalizeTimer_inv a.flushInterval a.percentThresholds
        tm ft _ rfl hft
      refine ⟨ft, ?_, ?_, hint, hts⟩
      · simp [flushState, htm, hemp, hft]
      · rw [hvals]
        exact List.perm_insertionSort _ tm.values

/-- Witness for C6 amended. -/
theorem c6_flush_mutation_witness :
    NoPanic stC6 ∧
    (flushState stC6).counters "h" "" =
      some { value := 3, interval := 1, perSecond := ((3 : Int) : ℚ) / stC6.flushInterval } := by
  have hnp : NoPanic stC6 := by
    intro n t tm h
    simp [stC6, emptyAgg] at h
  refine ⟨hnp, ?_⟩
  exact (c6_flush_mutation stC6 hnp "h" "").2.2.2.1 { value := 3, interval := 1 }
    (by simp [stC6, emptyAgg])

/-! ### C10 -/

/-- C10: flush neither creates nor removes series, for all four kind maps;
`Reset` removes a series exactly when it is absent already or expired. -/
theorem c10_flush_preserves_series (a : AggState) (hnp : NoPanic a) (now : ℚ)
    (n t : String) :
    ((flushState a).counters n t).isSome = ((a.counters n t)).isSome ∧
    ((flushState a).gauges n t).isSome = ((a.gauges n t)).isSome ∧
    ((flushState a).timers n t).isSome = ((a.timers n t)).isSome ∧
    ((flushState a).sets n t).isSome = ((a.sets n t)).isSome ∧
    ((Reset now a).counters n t = none ↔
      a.counters n t = none ∨
      ∃ c, a.counters n t = some c ∧ isExpired a now c.timestamp) ∧
    ((Reset now a).gauges n t = none ↔
      a.gauges n t = none ∨
      ∃ g, a.gauges n t = some g ∧ isExpired a now g.timestamp) ∧
    ((Reset now a).timers n t = none ↔
      a.timers n t = none ∨
      ∃ tm, a.timers n t = some tm ∧ isExpired a now tm.timestamp) ∧
    ((Reset now a).sets n t = none ↔
      a.sets n t = none ∨
      ∃ s, a.sets n t = some s ∧ isExpired a now s.timestamp) := by
  refine ⟨?_, rfl, ?_, rfl, ?_, ?_, ?_, ?_⟩
  · cases hc : a.counters n t <;> simp [flushState, hc]
  · cases hc : a.timers n t <;> simp [flushState, hc]
  · cases hc : a.counters n t with
    | none => simp [Reset, hc]
    | some c =>
      by_cases hexp : isExpired a now c.timestamp <;> simp [Reset, hc, hexp]
  · cases hc : a.gauges n t with
    | none => simp [Reset, hc]
    | some g =>
      by_cases hexp : isExpired a now g.timestamp <;> simp [Reset, hc, hexp]
  · cases hc : a.timers n t with
    | none => simp [Reset, hc]
    | some tm =>
      by_cases hexp : isExpired a now tm.timestamp <;> simp [Reset, hc, hexp]
  · cases hc : a.sets n t with
    | none => simp [Reset, hc]
    | some s =>
      by_cases hexp : isExpired a now s.timestamp <;> simp [Reset, hc, hexp]

/-- Witness for C10. -/
theorem c10_witness :
    NoPanic stC6 ∧
    ((flushState stC6).counters "h" "").isSome = ((stC6.counters "h" "")).isSome := by
  have hnp : NoPanic stC6 := by
    intro n t tm h
    simp [stC6, emptyAgg] at h
  exact ⟨hnp, (c10_flush_preserves_series stC6 hnp 0 "h" "").1⟩

end Gostatsd

namespace Gostatsd

/-! ### C8 -/

/-- C8: timer finalization computes `sum = Σvᵢ`, `sum_squares = Σvᵢ²`,
`mean = sum / n`, the population variance `stddev² = Σ(vᵢ - mean)² / n`
(the emitted StdDev being its square root), and the median over the
ascending-sorted samples: `(values[n/2 - 1] + values[n/2]) / 2` when n is
even and `values[n/2]` (integer division) when n is odd. -/
theorem c8_timer_finalization (I : ℚ) (ths : List ℚ) (tm ft : Timer)
    (h : finalizeTimer I ths tm = some ft) :
    ft.sum = tm.values.sum ∧
    ft.sumSquares = (tm.values.map fun v => v * v).sum ∧
    ft.mean = tm.values.sum / (tm.values.length : ℚ) ∧
    ft.stdDevSq = ((tm.values.map fun v => (v - ft.mean) * (v - ft.mean)).sum) /
      (tm.values.length : ℚ) ∧
    (tm.values.length % 2 = 0 → ∃ x y,
      idx? (List.insertionSort (· ≤ ·) tm.values)
        (((tm.values.length / 2 : Nat) : Int) - 1) = some x ∧
      idx? (List.insertionSort (· ≤ ·) tm.values) ((tm.values.length / 2 : Nat) : Int) =
        some y ∧
      ft.median = (x + y) / 2) ∧
    (tm.values.length % 2 ≠ 0 →
      idx? (List.insertionSort (· ≤ ·) tm.values) ((tm.values.length / 2 : Nat) : Int) =
        some ft.median) := by
  obtain ⟨hvals, hint, hts, hcount, hmn, hmx, hsum, hss, hmean, hsd, hps, heven, hodd⟩ :=
    finalizeTimer_inv I ths tm ft _ rfl h
  have hne : List.insertionSort (· ≤ ·) tm.values ≠ [] := idx?_zero_ne_nil hmn
  have hperm : (List.insertionSort (· ≤ ·) tm.values).Perm tm.values :=
    List.perm_insertionSort _ tm.values
  have hlen : (List.insertionSort (· ≤ ·) tm.values).length = tm.values.length :=
    hperm.length_eq
  have hsum' : ft.sum = tm.values.sum := by
    have := cumul_last_sum id _ hne ft.sum hsum
    rw [List.map_id] at this
    rw [this]
    exact hperm.sum_eq
  have hss' : ft.sumSquares = (tm.values.map fun v => v * v).sum := by
    have := cumul_last_sum (fun x => x * x) _ hne ft.sumSquares hss
    rw [this]
    exact (hperm.map fun v => v * v).sum_eq
  refine ⟨hsum', hss', ?_, ?_, ?_, ?_⟩
  · rw [hmean, hsum', hlen]
  · rw [hsd, foldl_add_map (fun v => (v - ft.mean) * (v - ft.mean)), zero_add, hlen,
      (hperm.map fun v => (v - ft.mean) * (v - ft.mean)).sum_eq]
  · intro hpar
    rw [← hlen]
    exact heven (by rw [hlen]; exact hpar)
  · intro hpar
    rw [← hlen]
    exact hodd (by rw [hlen]; exact hpar)

/-- Witness for C8, at the spec test vector {1,2,3,4,5} with thresholds
{90, -10} and a 1-second interval. -/
theorem c8_witness :
    finalizeTimer 1 [90, -10] tmC3 = some tC3val ∧
    tC3val.sum = tmC3.values.sum ∧
    tC3val.mean = tmC3.values.sum / (tmC3.values.length : ℚ) := by
  refine ⟨evalC3, ?_, ?_⟩
  · exact (c8_timer_finalization 1 [90, -10] tmC3 tC3val evalC3).1
  · exact (c8_timer_finalization 1 [90, -10] tmC3 tC3val evalC3).2.2.1

/-! ### C9 -/

/-- `receiveMetric` never changes the configuration fields. -/
theorem receiveMetric_flushInterval (m : Metric) (now : ℚ) (a : AggState) :
    (receiveMetric m now a).flushInterval = a.flushInterval := by
  cases htype : m.type
  case COUNTER => cases hc : a.counters m.name m.tagsKey <;> simp [receiveMetric, htype, hc]
  case GAUGE => cases hc : a.gauges m.name m.tagsKey <;> simp [receiveMetric, htype, hc]
  case TIMER => cases hc : a.timers m.name m.tagsKey <;> simp [receiveMetric, htype, hc]
  case SET => cases hc : a.sets m.name m.tagsKey <;> simp [receiveMetric, htype, hc]
  case UNKNOWN => simp [receiveMetric, htype]

/-- Folding a list of counter increments keeps the flush interval. -/
theorem foldCounter_flushInterval (nm tk : String) (now : ℚ) (vs : List Int) :
    ∀ a : AggState,
      ((vs.foldl (fun s v => receiveMetric (mkCounterMetric nm tk v) now s) a).flushInterval)
        = a.flushInterval := by
  induction vs with
  | nil => intro a; rfl
  | cons v vs ih =>
    intro a
    simp only [List.foldl_cons]
    rw [ih, receiveMetric_flushInterval]

/-- Folding nonnegative increments into an existing, in-range counter adds
them up exactly (the int64 wraps are the identity inside the range). -/
theorem foldCounter_value (nm tk : String) (now : ℚ) :
    ∀ (vs : List Int) (a : AggState) (c : Counter),
      a.counters nm tk = some c → 0 ≤ c.value →
      (∀ v ∈ vs, 0 ≤ v) → c.value + vs.sum < 2 ^ 63 →
      ((vs.foldl (fun s v => receiveMetric (mkCounterMetric nm tk v) now s) a).counters nm tk)
        = some { c with value := c.value + vs.sum } := by
  intro vs
  induction vs with
  | nil =>
    intro a c hc _ _ _
    simpa using hc
  | cons v vs ih =>
    intro a c hc hnn hpos hbound
    have hvpos : 0 ≤ v := hpos v (by simp)
    have hrest : ∀ x ∈ vs, 0 ≤ x := fun x hx => hpos x (by simp [hx])
    have hsum0 : 0 ≤ vs.sum := List.sum_nonneg hrest
    have hvsum : v + vs.sum ≤ c.value + (v + vs.sum) := by linarith
    have hv64 : v < 2 ^ 63 := by
      have : c.value + (v + vs.sum) < 2 ^ 63 := by
        simpa [List.sum_cons] using hbound
      linarith
    have hcv64 : c.value + v < 2 ^ 63 := by
      have : c.value + (v + vs.sum) < 2 ^ 63 := by
        simpa [List.sum_cons] using hbound
      linarith
    have hstep : (receiveMetric (mkCounterMetric nm tk v) now a).counters nm tk =
        some { c with value := c.value + v } := by
      simp [receiveMetric, mkCounterMetric, hc, updMap, toInt64, goTrunc_intCast,
        wrap64_eq_self v (by linarith) hv64,
        wrap64_eq_self (c.value + v) (by linarith) hcv64]
    simp only [List.foldl_cons]
    have := ih (receiveMetric (mkCounterMetric nm tk v) now a) { c with value := c.value + v }
      hstep (by simp; linarith) hrest
      (by simp only [List.sum_cons] at hbound; simpa [add_assoc] using hbound)
    rw [this]
    simp [add_assoc, List.sum_cons]

/-- C9: a fresh counter series that receives nonnegative, in-range increments
v₁…vₖ within one window accumulates `value = Σvᵢ`, and flush writes
`per_second = value / flush_interval_seconds`. -/
theorem c9_counter_roundtrip (a : AggState) (nm tk : String) (vs : List Int) (now : ℚ)
    (h0 : a.counters nm tk = none) (hne : vs ≠ []) (hpos : ∀ v ∈ vs, 0 ≤ v)
    (hbound : vs.sum < 2 ^ 63) :
    ((vs.foldl (fun s v => receiveMetric (mkCounterMetric nm tk v) now s) a).counters
      nm tk).map Counter.value = some vs.sum ∧
    ((flushState (vs.foldl (fun s v => receiveMetric (mkCounterMetric nm tk v) now s)
      a)).counters nm tk).map Counter.perSecond = some ((vs.sum : ℚ) / a.flushInterval) := by
  obtain ⟨v, vs', rfl⟩ := List.exists_cons_of_ne_nil hne
  have hvpos : 0 ≤ v := hpos v (by simp)
  have hrest : ∀ x ∈ vs', 0 ≤ x := fun x hx => hpos x (by simp [hx])
  have hsum0 : 0 ≤ vs'.sum := List.sum_nonneg hrest
  have hv64 : v < 2 ^ 63 := by
    simp only [List.sum_cons] at hbound
    linarith
  have hstep : (receiveMetric (mkCounterMetric nm tk v) now a).counters nm tk =
      some (NewCounter now a.flushInterval v) := by
    simp [receiveMetric, mkCounterMetric, h0, updMap, toInt64, goTrunc_intCast,
      wrap64_eq_self v (by linarith) hv64]
  have hfold := foldCounter_value nm tk now vs'
    (receiveMetric (mkCounterMetric nm tk v) now a) (NewCounter now a.flushInterval v)
    hstep (by simp [NewCounter]; linarith)
    hrest (by simpa [NewCounter, List.sum_cons] using hbound)
  have hfoldc : (vs'.foldl (fun s w => receiveMetric (mkCounterMetric nm tk w) now s)
      (receiveMetric (mkCounterMetric nm tk v) now a)).counters nm tk =
      some { value := v + vs'.sum, interval := a.flushInterval, timestamp := now } := by
    simpa [NewCounter] using hfold
  have hfi : (vs'.foldl (fun s w => receiveMetric (mkCounterMetric nm tk w) now s)
      (receiveMetric (mkCounterMetric nm tk v) now a)).flushInterval = a.flushInterval :=
    (foldCounter_flushInterval nm tk now vs' _).trans
      (receiveMetric_flushInterval _ _ _)
  constructor
  · simp [List.foldl_cons, hfoldc, List.sum_cons]
  · simp [flushState, List.foldl_cons, hfoldc, finalizeCounter, hfi, List.sum_cons,
      Int.cast_list_sum]

/-- Witness for C9: three increments of 1 in a 1-second window give value 3
and per_second 3. -/
theorem c9_witness :
    (emptyAgg 1 0 []).counters "hits" "" = none ∧
    (([1, 1, 1] : List Int) ≠ []) ∧
    (∀ v ∈ ([1, 1, 1] : List Int), 0 ≤ v) ∧
    (([1, 1, 1] : List Int).sum < 2 ^ 63) ∧
    ((([1, 1, 1] : List Int).foldl
      (fun s v => receiveMetric (mkCounterMetric "hits" "" v) 0 s)
      (emptyAgg 1 0 [])).counters "hits" "").map Counter.value =
        some ([1, 1, 1] : List Int).sum ∧
    ((flushState (([1, 1, 1] : List Int).foldl
      (fun s v => receiveMetric (mkCounterMetric "hits" "" v) 0 s)
      (emptyAgg 1 0 []))).counters "hits" "").map Counter.perSecond =
        some (((([1, 1, 1] : List Int).sum : Int) : ℚ) / (emptyAgg 1 0 []).flushInterval) := by
  have h0 : (emptyAgg 1 0 []).counters "hits" "" = none := rfl
  have hne : ([1, 1, 1] : List Int) ≠ [] := by simp
  have hpos : ∀ v ∈ ([1, 1, 1] : List Int), 0 ≤ v := by
    intro v hv
    simp at hv
    omega
  have hbound : ([1, 1, 1] : List Int).sum < 2 ^ 63 := by norm_num
  have := c9_counter_roundtrip (emptyAgg 1 0 []) "hits" "" [1, 1, 1] 0 h0 hne hpos hbound
  exact ⟨h0, hne, hpos, hbound, this.1, this.2⟩

end Gostatsd
